import Mathlib

/-!
Verification of the mood-movie-recommender emotion engine.

Shallow embedding of the repository's pure core:
  - `src/emotion_engine/classifier.py`  (label mapping, classifier error handling)
  - `src/emotion_engine/genre_mapper.py` (genre heuristics)
  - `src/emotion_engine/profiler.py`    (profile synthesis)
  - `src/recommender/engine.py`         (mood-matching ranking, journey planner)

Numeric scores are embedded as rationals (`ℚ`), Python dicts as association
lists in insertion order, and Python's stable `sorted(..., reverse=True)` as a
stable descending insertion sort.  Python's `round(x, n)` is idealised as exact
round-half-up at `n` decimal digits.  The external NLP classifier is an
external collaborator: its raw output (or its failure) is a parameter of the
embedding.
-/

/-- First-match association-list lookup, `dict[key]` / `dict.get(key)`. -/
def findMap {α : Type} : List (String × α) → String → Option α
  | [], _ => none
  | (k, v) :: l, key => if k = key then some v else findMap l key

/-- `dict.get(key, 0)` on a score dictionary. -/
def lookupD (m : List (String × ℚ)) (key : String) : ℚ :=
  match m with
  | [] => 0
  | (k, v) :: l => if k = key then v else lookupD l key

/-- Python dict update `d[k] = op d[k] v if k in d else v`: replaces the value
in place when the key is present, otherwise appends the binding at the end
(dict insertion order). -/
def updateWith (op : ℚ → ℚ → ℚ) (m : List (String × ℚ)) (k : String) (v : ℚ) :
    List (String × ℚ) :=
  match m with
  | [] => [(k, v)]
  | (k', v') :: rest =>
      if k' = k then (k', op v' v) :: rest else (k', v') :: updateWith op rest k v

/-- Running combination of a stream of scores into an optional accumulator:
the first score is taken as-is, each later one is merged with `op`. -/
def combineRun (op : ℚ → ℚ → ℚ) : Option ℚ → List ℚ → Option ℚ
  | acc, [] => acc
  | none, s :: rest => combineRun op (some s) rest
  | some a, s :: rest => combineRun op (some (op a s)) rest

/-- The scores a pair list contributes to one category, in list order. -/
def pairsFor (cat : String) (pairs : List (String × ℚ)) : List ℚ :=
  pairs.filterMap fun p => if p.1 = cat then some p.2 else none

/-- Insert into a list sorted by strictly descending second component, after
all entries with a strictly larger or equal key (stable position). -/
def insertDesc {β : Type} (x : β × ℚ) : List (β × ℚ) → List (β × ℚ)
  | [] => [x]
  | y :: l => if x.2 < y.2 then y :: insertDesc x l else x :: y :: l

/-- Stable sort by descending second component; embeds Python's stable
`sorted(items, key=lambda x: x[1], reverse=True)`. -/
def sortDesc {β : Type} : List (β × ℚ) → List (β × ℚ)
  | [] => []
  | x :: l => insertDesc x (sortDesc l)

/-- Python `round(x, n)`, idealised over exact rationals (round half up). -/
def roundDec (n : ℕ) (x : ℚ) : ℚ :=
  ((⌊x * 10 ^ n + 1 / 2⌋ : ℤ) : ℚ) / 10 ^ n

/-- Python `str.lower()`, character-wise (structural-recursion embedding of
`String.toLower`). -/
def lowerStr (s : String) : String := ⟨s.data.map Char.toLower⟩

/-- Python `str.strip()`: drop whitespace from both ends. -/
def trimStr (s : String) : String :=
  ⟨((s.data.dropWhile Char.isWhitespace).reverse.dropWhile Char.isWhitespace).reverse⟩

/-! ## Emotion taxonomy and classifier mapping (`classifier.py`) -/

/-- The 12 emotion categories, in declaration order. -/
def EMOTION_CATEGORIES : List String :=
  ["cathartic_sadness", "thrilling_tension", "mind_blown", "pure_joy",
   "bittersweet_hope", "righteous_anger", "cozy_comfort", "controlled_fear",
   "intellectual_stimulation", "romantic_warmth", "triumphant_inspired",
   "awe_wonder"]

/-- Mapping from model emotions to the taxonomy; `none` embeds Python's
`None` value for labels intentionally mapped to nothing. -/
def MODEL_TO_CATEGORY : List (String × Option String) :=
  [("joy", some "pure_joy"),
   ("sadness", some "cathartic_sadness"),
   ("anger", some "righteous_anger"),
   ("fear", some "controlled_fear"),
   ("surprise", some "mind_blown"),
   ("disgust", some "controlled_fear"),
   ("neutral", none),
   ("love", some "romantic_warmth"),
   ("excitement", some "thrilling_tension"),
   ("admiration", some "triumphant_inspired"),
   ("amusement", some "pure_joy"),
   ("gratitude", some "bittersweet_hope"),
   ("optimism", some "bittersweet_hope"),
   ("relief", some "cozy_comfort"),
   ("pride", some "triumphant_inspired"),
   ("curiosity", some "intellectual_stimulation"),
   ("confusion", some "mind_blown"),
   ("nervousness", some "thrilling_tension"),
   ("remorse", some "cathartic_sadness"),
   ("grief", some "cathartic_sadness"),
   ("disappointment", some "cathartic_sadness"),
   ("embarrassment", some "cathartic_sadness"),
   ("realization", some "mind_blown"),
   ("approval", some "cozy_comfort"),
   ("caring", some "romantic_warmth"),
   ("desire", some "romantic_warmth"),
   ("annoyance", some "righteous_anger"),
   ("disapproval", some "righteous_anger")]

/-- `classify_text`'s handling of the external pipeline invocation
(classifier.py lines 70-83): the invocation itself is external and appears
here as an `Except` parameter; a raised exception is caught and turned into
an empty mapping. -/
def classifyText (callResult : Except Unit (List (String × ℚ))) :
    List (String × ℚ) :=
  match callResult with
  | .ok emotions => emotions
  | .error _ => []

/-- `map_to_categories`: fold raw label scores into taxonomy categories,
keeping the maximum when several labels hit the same category; labels whose
lookup yields nothing (absent, or mapped to `None`) are skipped. -/
def mapToCategories (emotions : List (String × ℚ)) : List (String × ℚ) :=
  emotions.foldl
    (fun categoryScores p =>
      match (findMap MODEL_TO_CATEGORY (lowerStr p.1)).join with
      | some category => updateWith max categoryScores category p.2
      | none => categoryScores)
    []

/-! ## Genre heuristics (`genre_mapper.py`) -/

/-- Genre to emotion category mappings, inner dicts in declaration order. -/
def GENRE_EMOTION_MAP : List (String × List (String × ℚ)) :=
  [("action",
    [("thrilling_tension", 0.8), ("triumphant_inspired", 0.6),
     ("righteous_anger", 0.4), ("awe_wonder", 0.3)]),
   ("adventure",
    [("awe_wonder", 0.8), ("thrilling_tension", 0.6),
     ("triumphant_inspired", 0.5), ("pure_joy", 0.4)]),
   ("thriller",
    [("thrilling_tension", 0.9), ("controlled_fear", 0.6),
     ("mind_blown", 0.5), ("intellectual_stimulation", 0.4)]),
   ("drama",
    [("cathartic_sadness", 0.7), ("bittersweet_hope", 0.6),
     ("intellectual_stimulation", 0.4), ("triumphant_inspired", 0.3)]),
   ("romance",
    [("romantic_warmth", 0.9), ("bittersweet_hope", 0.5),
     ("cathartic_sadness", 0.3), ("pure_joy", 0.4)]),
   ("comedy",
    [("pure_joy", 0.9), ("cozy_comfort", 0.5), ("romantic_warmth", 0.3)]),
   ("family",
    [("cozy_comfort", 0.8), ("pure_joy", 0.7), ("bittersweet_hope", 0.4),
     ("romantic_warmth", 0.3)]),
   ("animation",
    [("awe_wonder", 0.7), ("pure_joy", 0.6), ("cozy_comfort", 0.5)]),
   ("horror",
    [("controlled_fear", 0.9), ("thrilling_tension", 0.7),
     ("cathartic_sadness", 0.2)]),
   ("crime",
    [("thrilling_tension", 0.7), ("righteous_anger", 0.6),
     ("intellectual_stimulation", 0.5), ("mind_blown", 0.4)]),
   ("mystery",
    [("intellectual_stimulation", 0.8), ("thrilling_tension", 0.6),
     ("mind_blown", 0.7)]),
   ("war",
    [("cathartic_sadness", 0.7), ("righteous_anger", 0.6),
     ("triumphant_inspired", 0.5), ("thrilling_tension", 0.5)]),
   ("science fiction",
    [("awe_wonder", 0.8), ("intellectual_stimulation", 0.7),
     ("mind_blown", 0.6), ("thrilling_tension", 0.4)]),
   ("fantasy",
    [("awe_wonder", 0.8), ("pure_joy", 0.5), ("triumphant_inspired", 0.5),
     ("romantic_warmth", 0.3)]),
   ("documentary",
    [("intellectual_stimulation", 0.9), ("mind_blown", 0.5),
     ("awe_wonder", 0.4)]),
   ("music",
    [("pure_joy", 0.7), ("triumphant_inspired", 0.6),
     ("romantic_warmth", 0.5)]),
   ("history",
    [("intellectual_stimulation", 0.7), ("bittersweet_hope", 0.5),
     ("cathartic_sadness", 0.4)]),
   ("western",
    [("righteous_anger", 0.6), ("thrilling_tension", 0.5),
     ("triumphant_inspired", 0.4)])]

/-- `get_genre_emotions`: per recognised genre, fold its emotion table into
the accumulated scores, averaging with the accumulated value when the
category is already present.  (The Python `genre_count` counter is dead for
the returned dictionary and is not modelled.) -/
def getGenreEmotions (genres : List String) : List (String × ℚ) :=
  if genres = [] then []
  else
    genres.foldl
      (fun emotionScores genre =>
        match findMap GENRE_EMOTION_MAP (trimStr (lowerStr genre)) with
        | some genreEmotions =>
            genreEmotions.foldl
              (fun acc p => updateWith (fun a s => (a + s) / 2) acc p.1 p.2)
              emotionScores
        | none => emotionScores)
      []

def HIGH_INTENSITY : List String := ["action", "thriller", "horror", "war", "crime"]

def MEDIUM_INTENSITY : List String :=
  ["adventure", "mystery", "science fiction", "drama", "western"]

def LOW_INTENSITY : List String := ["comedy", "family", "romance", "animation", "music"]

/-- `get_intensity_from_genres`: 8/5/3 per genre (default 5), averaged. -/
def getIntensityFromGenres (genres : List String) : ℚ :=
  let scores := genres.map fun genre =>
    let g := trimStr (lowerStr genre)
    if g ∈ HIGH_INTENSITY then (8 : ℚ)
    else if g ∈ MEDIUM_INTENSITY then 5
    else if g ∈ LOW_INTENSITY then 3
    else 5
  if scores = [] then 5 else scores.sum / scores.length

def HIGH_COMFORT : List String := ["comedy", "family", "animation", "romance", "music"]

def MEDIUM_COMFORT : List String := ["adventure", "fantasy", "drama", "documentary"]

def LOW_COMFORT : List String := ["horror", "thriller", "war", "crime"]

/-- `get_comfort_from_genres`: 8/5/2 per genre (default 5), averaged. -/
def getComfortFromGenres (genres : List String) : ℚ :=
  let scores := genres.map fun genre =>
    let g := trimStr (lowerStr genre)
    if g ∈ HIGH_COMFORT then (8 : ℚ)
    else if g ∈ MEDIUM_COMFORT then 5
    else if g ∈ LOW_COMFORT then 2
    else 5
  if scores = [] then 5 else scores.sum / scores.length

/-! ## Profile synthesis (`profiler.py`) -/

/-- Emotion profile for a movie (`EmotionProfile` dataclass). -/
structure EmotionProfile where
  emotionScores : List (String × ℚ)
  dominantEmotions : List String
  intensityScore : ℚ
  catharsisScore : ℚ
  comfortScore : ℚ
  confidence : ℚ
  deriving DecidableEq

def HIGH_INTENSITY_EMOTIONS : List String :=
  ["thrilling_tension", "controlled_fear", "righteous_anger", "mind_blown"]

/-- `calculate_intensity`: 0.7 times the best high-intensity emotion score
plus 0.3 times the genre intensity prior, scaled to 0-10. -/
def calculateIntensity (emotions : List (String × ℚ)) (genres : List String) : ℚ :=
  let intensityScores := HIGH_INTENSITY_EMOTIONS.map (lookupD emotions)
  let emotionIntensity :=
    match intensityScores with
    | [] => 0
    | s :: rest => rest.foldl max s
  let genreIntensity := getIntensityFromGenres genres / 10
  ((emotionIntensity * 0.7) + (genreIntensity * 0.3)) * 10

def CATHARTIC_EMOTIONS : List String :=
  ["cathartic_sadness", "bittersweet_hope", "triumphant_inspired", "awe_wonder"]

/-- `calculate_catharsis`: 0.7 times the best cathartic score plus 0.3 times
their mean, scaled to 0-10. -/
def calculateCatharsis (emotions : List (String × ℚ)) : ℚ :=
  let catharsisScores := CATHARTIC_EMOTIONS.map (lookupD emotions)
  let maxCatharsis :=
    match catharsisScores with
    | [] => 0
    | s :: rest => rest.foldl max s
  let avgCatharsis :=
    if catharsisScores = [] then 0 else catharsisScores.sum / catharsisScores.length
  ((maxCatharsis * 0.7) + (avgCatharsis * 0.3)) * 10

def COMFORT_EMOTIONS : List String := ["pure_joy", "cozy_comfort", "romantic_warmth"]

def DISCOMFORT_EMOTIONS : List String :=
  ["controlled_fear", "thrilling_tension", "cathartic_sadness"]

/-- `calculate_comfort`: mean comfort minus half the mean discomfort, mixed
with the genre comfort prior, scaled to 0-10 and clamped. -/
def calculateComfort (emotions : List (String × ℚ)) (genres : List String) : ℚ :=
  let comfortScores := COMFORT_EMOTIONS.map (lookupD emotions)
  let discomfortScores := DISCOMFORT_EMOTIONS.map (lookupD emotions)
  let comfort := if comfortScores = [] then 0 else comfortScores.sum / comfortScores.length
  let discomfort :=
    if discomfortScores = [] then 0 else discomfortScores.sum / discomfortScores.length
  let genreComfort := getComfortFromGenres genres / 10
  let netComfort := comfort - (discomfort * 0.5)
  let combined := (netComfort * 0.6) + (genreComfort * 0.4)
  max 0 (min 10 (combined * 10))

/-- The combined-score dictionary built by `create_emotion_profile` lines
99-108: loop over the taxonomy in declaration order, keep weighted scores
above the 0.01 materiality threshold, rounded to 3 decimals. -/
def combinedEmotions (nlpEmotions genreEmotions : List (String × ℚ))
    (nlpWeight genreWeight : ℚ) : List (String × ℚ) :=
  EMOTION_CATEGORIES.filterMap fun category =>
    let nlpScore := lookupD nlpEmotions category
    let genreScore := lookupD genreEmotions category
    let combinedScore := (nlpScore * nlpWeight) + (genreScore * genreWeight)
    if 0.01 < combinedScore then some (category, roundDec 3 combinedScore) else none

/-- The NLP category scores of `create_emotion_profile` lines 82-91: the
classifier is only invoked when the overview is present and longer than 20
characters (`overview` is the input text abstracted to its length, `none`
meaning absent). -/
def nlpInput (overview : Option ℕ)
    (classifierResult : Except Unit (List (String × ℚ))) : List (String × ℚ) :=
  if (match overview with | some len => decide (20 < len) | none => false) then
    mapToCategories (classifyText classifierResult)
  else []

/-- The confidence estimate of `create_emotion_profile` lines 84-91: 0.5 by
default, `min(0.9, 0.5 + len/1000)` when the text is used. -/
def confidenceOf (overview : Option ℕ) : ℚ :=
  match overview with
  | some len => if 20 < len then min 0.9 (0.5 + (len : ℚ) / 1000) else 0.5
  | none => 0.5

/-- Body of `create_emotion_profile` after weight normalisation, taking the
already-normalised weights. -/
def buildProfile (overview : Option ℕ)
    (classifierResult : Except Unit (List (String × ℚ)))
    (genres : List String) (nlpWeight genreWeight : ℚ) : EmotionProfile :=
  let nlpEmotions := nlpInput overview classifierResult
  let genreEmotions := getGenreEmotions genres
  let combined := combinedEmotions nlpEmotions genreEmotions nlpWeight genreWeight
  { emotionScores := combined
    dominantEmotions := ((sortDesc combined).take 3).map Prod.fst
    intensityScore := roundDec 1 (calculateIntensity combined genres)
    catharsisScore := roundDec 1 (calculateCatharsis combined)
    comfortScore := roundDec 1 (calculateComfort combined genres)
    confidence := roundDec 2 (confidenceOf overview) }

/-- `create_emotion_profile`: normalise the weights (a zero weight sum is a
Python `ZeroDivisionError`, embedded as `none`), then build the profile. -/
def createEmotionProfile (overview : Option ℕ)
    (classifierResult : Except Unit (List (String × ℚ)))
    (genres : List String) (nlpWeight genreWeight : ℚ) : Option EmotionProfile :=
  if nlpWeight + genreWeight = 0 then none
  else
    let totalWeight := nlpWeight + genreWeight
    some (buildProfile overview classifierResult genres
      (nlpWeight / totalWeight) (genreWeight / totalWeight))

/-! ## Mood-matching ranking engine (`engine.py`) -/

/-- The per-item fields the ranking engine reads from a catalog row. -/
structure Movie where
  title : String
  dominantEmotions : List String
  intensityScore : ℚ
  comfortScore : ℚ
  deriving DecidableEq

/-- One mood preset: optional intensity/comfort preference and primary
category, any of which a `MOOD_PRESETS` entry may omit. -/
structure MoodParams where
  intensity : Option String := none
  comfort : Option String := none
  primary : Option String := none
  deriving DecidableEq

def MOOD_PRESETS : List (String × MoodParams) :=
  [("stressed", { intensity := some "low", comfort := some "high" }),
   ("sad", { primary := some "cathartic_sadness", comfort := some "medium" }),
   ("bored", { intensity := some "high", primary := some "thrilling_tension" }),
   ("anxious", { comfort := some "high", intensity := some "low" }),
   ("happy", { primary := some "pure_joy", comfort := some "high" }),
   ("lonely", { primary := some "romantic_warmth", comfort := some "high" }),
   ("angry", { primary := some "righteous_anger", intensity := some "high" }),
   ("tired", { comfort := some "high", intensity := some "low" }),
   ("curious", { primary := some "intellectual_stimulation" }),
   ("romantic", { primary := some "romantic_warmth" }),
   ("adventurous", { primary := some "awe_wonder", intensity := some "high" }),
   ("reflective", { primary := some "bittersweet_hope", intensity := some "low" })]

def DESIRED_FEELINGS : List (String × List String) :=
  [("feel-good", ["pure_joy", "cozy_comfort", "romantic_warmth"]),
   ("thrilled", ["thrilling_tension", "controlled_fear", "mind_blown"]),
   ("inspired", ["triumphant_inspired", "awe_wonder", "bittersweet_hope"]),
   ("cry", ["cathartic_sadness", "bittersweet_hope"]),
   ("laugh", ["pure_joy", "cozy_comfort"]),
   ("think", ["intellectual_stimulation", "mind_blown"]),
   ("scared", ["controlled_fear", "thrilling_tension"]),
   ("romantic", ["romantic_warmth", "bittersweet_hope"]),
   ("empowered", ["triumphant_inspired", "righteous_anger"]),
   ("relaxed", ["cozy_comfort", "pure_joy"]),
   ("amazed", ["awe_wonder", "mind_blown"])]

/-- `_calculate_match_score`, transcribed step by step: sequential
accumulation of the emotion, intensity and comfort components, the primary
bonus, then the cap at 1.0. -/
def calcMatchScore (movie : Movie) (moodParams : MoodParams)
    (desiredEmotions : List String) : ℚ :=
  let movieEmotions := movie.dominantEmotions
  let emotionMatch : ℕ := desiredEmotions.countP fun e => decide (e ∈ movieEmotions)
  let emotionScore : ℚ :=
    if desiredEmotions = [] then 0 else (emotionMatch : ℚ) / desiredEmotions.length
  let score1 := 0 + emotionScore * 0.4
  let movieIntensity := movie.intensityScore
  let desiredIntensity := moodParams.intensity.getD "medium"
  let intensityScore : ℚ :=
    if desiredIntensity = "low" then max 0 (1 - movieIntensity / 10)
    else if desiredIntensity = "high" then movieIntensity / 10
    else 1 - |movieIntensity - 5| / 5
  let score2 := score1 + intensityScore * 0.3
  let movieComfort := movie.comfortScore
  let desiredComfort := moodParams.comfort.getD "medium"
  let comfortScore : ℚ :=
    if desiredComfort = "high" then movieComfort / 10
    else if desiredComfort = "low" then max 0 (1 - movieComfort / 10)
    else 1 - |movieComfort - 5| / 5
  let score3 := score2 + comfortScore * 0.3
  let score4 :=
    match moodParams.primary with
    | some p => if p ∈ movieEmotions then score3 + 0.1 else score3
    | none => score3
  min 1 score4

/-- Mood resolution in `recommend_by_mood`: unknown moods give `{}`. -/
def resolveMoodParams (currentMood : String) : MoodParams :=
  (findMap MOOD_PRESETS (lowerStr currentMood)).getD {}

/-- Desired-feeling resolution in `recommend_by_mood`: unknown feelings
default to `["pure_joy", "cozy_comfort"]`. -/
def resolveDesired (desiredFeeling : String) : List String :=
  let desiredEmotions := (findMap DESIRED_FEELINGS (lowerStr desiredFeeling)).getD []
  if desiredEmotions = [] then ["pure_joy", "cozy_comfort"] else desiredEmotions

/-- The `(idx, score)` pairs of the scoring loop `for idx, row in
self.movies_df.iterrows()`, indices counted from `i`. -/
def enumScores (score : Movie → ℚ) : ℕ → List Movie → List (ℕ × ℚ)
  | _, [] => []
  | i, m :: rest => (i, score m) :: enumScores score (i + 1) rest

/-- The scored candidate list of `recommend_by_mood` before sorting. -/
def moodScores (catalog : List Movie) (currentMood desiredFeeling : String) :
    List (ℕ × ℚ) :=
  enumScores
    (fun m => calcMatchScore m (resolveMoodParams currentMood) (resolveDesired desiredFeeling))
    0 catalog

/-- `recommend_by_mood`, abstracted to the `(catalog index, match score)`
pairs the returned `MovieRecommendation` objects are built from. -/
def recommendByMood (catalog : List Movie) (currentMood desiredFeeling : String)
    (nRecommendations : ℕ) : List (ℕ × ℚ) :=
  (sortDesc (moodScores catalog currentMood desiredFeeling)).take nRecommendations

/-- The filter of `recommend_by_emotions`: intensity within bounds, comfort
at least the minimum. -/
def emotionFilter (minIntensity maxIntensity minComfort : ℚ) (m : Movie) : Bool :=
  decide (minIntensity ≤ m.intensityScore) && decide (m.intensityScore ≤ maxIntensity)
    && decide (minComfort ≤ m.comfortScore)

/-- Filter-then-score pass keeping original catalog indices, as the
DataFrame filter in `recommend_by_emotions` keeps original row labels. -/
def enumFilterScores (pred : Movie → Bool) (score : Movie → ℚ) :
    ℕ → List Movie → List (ℕ × ℚ)
  | _, [] => []
  | i, m :: rest =>
      if pred m then (i, score m) :: enumFilterScores pred score (i + 1) rest
      else enumFilterScores pred score (i + 1) rest

/-- The fraction-of-targets-matched score of `recommend_by_emotions`. -/
def emotionFractionScore (targetEmotions : List String) (m : Movie) : ℚ :=
  let matchCount : ℕ := targetEmotions.countP fun e => decide (e ∈ m.dominantEmotions)
  if targetEmotions = [] then 0 else (matchCount : ℚ) / targetEmotions.length

/-- The scored candidate list of `recommend_by_emotions` before sorting. -/
def emotionScoresList (catalog : List Movie) (targetEmotions : List String)
    (minIntensity maxIntensity minComfort : ℚ) : List (ℕ × ℚ) :=
  enumFilterScores (emotionFilter minIntensity maxIntensity minComfort)
    (emotionFractionScore targetEmotions) 0 catalog

/-- `recommend_by_emotions`, abstracted to `(catalog index, score)` pairs. -/
def recommendByEmotions (catalog : List Movie) (targetEmotions : List String)
    (minIntensity maxIntensity minComfort : ℚ) (nRecommendations : ℕ) :
    List (ℕ × ℚ) :=
  (sortDesc (emotionScoresList catalog targetEmotions minIntensity maxIntensity minComfort)).take
    nRecommendations

/-- `get_mood_journey`: three ranking calls, first element of the first and
last appended when present, middle block only for `n_movies >= 3`, truncated
to `n_movies`. -/
def getMoodJourney (catalog : List Movie) (startMood endMood : String)
    (nMovies : ℕ) : List (ℕ × ℚ) :=
  let firstRecs := recommendByMood catalog startMood startMood 1
  let journey1 : List (ℕ × ℚ) := match firstRecs with | [] => [] | x :: _ => [x]
  let journey2 : List (ℕ × ℚ) :=
    if 3 ≤ nMovies then recommendByMood catalog startMood endMood (nMovies - 2) else []
  let finalRecs := recommendByMood catalog "neutral" endMood 1
  let journey3 : List (ℕ × ℚ) := match finalRecs with | [] => [] | x :: _ => [x]
  (journey1 ++ journey2 ++ journey3).take nMovies

/-! ## Spec-side characterisations

Definitions below follow the specification's words, to be compared with the
source-transcribed functions above. -/

/-- Match-score formula as the specification states it: a weighted sum of
the three components plus the primary bonus, capped at 1. -/
def specMatchScore (movie : Movie) (moodParams : MoodParams)
    (desiredEmotions : List String) : ℚ :=
  let emotionMatch : ℚ :=
    (desiredEmotions.countP fun e => decide (e ∈ movie.dominantEmotions) : ℚ)
      / desiredEmotions.length
  let intensityMatch : ℚ :=
    if moodParams.intensity.getD "medium" = "low" then
      max 0 (1 - movie.intensityScore / 10)
    else if moodParams.intensity.getD "medium" = "high" then movie.intensityScore / 10
    else 1 - |movie.intensityScore - 5| / 5
  let comfortMatch : ℚ :=
    if moodParams.comfort.getD "medium" = "high" then movie.comfortScore / 10
    else if moodParams.comfort.getD "medium" = "low" then
      max 0 (1 - movie.comfortScore / 10)
    else 1 - |movie.comfortScore - 5| / 5
  let bonus : ℚ :=
    match moodParams.primary with
    | some p => if p ∈ movie.dominantEmotions then 0.1 else 0
    | none => 0
  min 1 (0.4 * emotionMatch + 0.3 * intensityMatch + 0.3 * comfortMatch + bonus)

/-- All genre-table emotion contributions of the input genres, flattened in
input genre order (unknown genres contribute nothing). -/
def genrePairs : List String → List (String × ℚ)
  | [] => []
  | genre :: rest =>
      (match findMap GENRE_EMOTION_MAP (trimStr (lowerStr genre)) with
       | some genreEmotions => genreEmotions
       | none => []) ++ genrePairs rest

/-- The scores the input genres contribute to one category, in input order. -/
def genreScoresFor (genres : List String) (cat : String) : List ℚ :=
  pairsFor cat (genrePairs genres)

/-- Classifier labels resolved through the lookup table, keeping the score;
labels that resolve to nothing are dropped. -/
def resolvedPairs (emotions : List (String × ℚ)) : List (String × ℚ) :=
  emotions.filterMap fun p =>
    ((findMap MODEL_TO_CATEGORY (lowerStr p.1)).join).map fun category => (category, p.2)

/-- The scores of all external labels mapping to one category, in order. -/
def modelScoresFor (emotions : List (String × ℚ)) (cat : String) : List ℚ :=
  pairsFor cat (resolvedPairs emotions)

/-- Position of a category in the taxonomy declaration order. -/
def taxOrder (cat : String) : ℕ := EMOTION_CATEGORIES.indexOf cat

/-! ## Sample data for witness instantiations -/

def sampleMovieA : Movie :=
  { title := "A", dominantEmotions := ["pure_joy", "cozy_comfort"],
    intensityScore := 2, comfortScore := 9 }

def sampleMovieB : Movie :=
  { title := "B", dominantEmotions := ["thrilling_tension", "controlled_fear"],
    intensityScore := 8, comfortScore := 2 }

def sampleMovieC : Movie :=
  { title := "C", dominantEmotions := ["cathartic_sadness", "bittersweet_hope"],
    intensityScore := 5, comfortScore := 5 }

def sampleCatalog : List Movie := [sampleMovieA, sampleMovieB, sampleMovieC]

/-! ## Association-list and fold lemmas -/

theorem findMap_updateWith_self (op : ℚ → ℚ → ℚ) (m : List (String × ℚ))
    (k : String) (v : ℚ) :
    findMap (updateWith op m k v) k =
      some (match findMap m k with | none => v | some a => op a v) := by
  induction m with
  | nil => simp [updateWith, findMap]
  | cons p rest ih =>
      obtain ⟨k', v'⟩ := p
      by_cases h : k' = k
      · subst h
        simp [updateWith, findMap]
      · simp [updateWith, findMap, h, ih]

theorem findMap_updateWith_ne (op : ℚ → ℚ → ℚ) (m : List (String × ℚ))
    {k k' : String} (v : ℚ) (h : k ≠ k') :
    findMap (updateWith op m k v) k' = findMap m k' := by
  induction m with
  | nil => simp [updateWith, findMap, h]
  | cons p rest ih =>
      obtain ⟨k'', v''⟩ := p
      by_cases h2 : k'' = k
      · subst h2
        simp [updateWith, findMap, h]
      · simp only [updateWith, if_neg h2]
        by_cases h3 : k'' = k'
        · simp [findMap, h3]
        · simp [findMap, h3, ih]

theorem combineRun_some (op : ℚ → ℚ → ℚ) (l : List ℚ) (a : ℚ) :
    combineRun op (some a) l = some (l.foldl op a) := by
  induction l generalizing a with
  | nil => simp [combineRun]
  | cons s rest ih => simp [combineRun, ih, List.foldl_cons]

theorem findMap_foldl_updateWith (op : ℚ → ℚ → ℚ) (pairs : List (String × ℚ))
    (acc : List (String × ℚ)) (cat : String) :
    findMap (pairs.foldl (fun m p => updateWith op m p.1 p.2) acc) cat =
      combineRun op (findMap acc cat) (pairsFor cat pairs) := by
  induction pairs generalizing acc with
  | nil => simp [pairsFor, combineRun]
  | cons p rest ih =>
      simp only [List.foldl_cons, ih]
      by_cases h : p.1 = cat
      · rw [show updateWith op acc p.1 p.2 = updateWith op acc cat p.2 from by rw [h]]
        rw [findMap_updateWith_self]
        simp only [pairsFor, List.filterMap_cons, if_pos h]
        cases hfm : findMap acc cat <;> simp [combineRun, pairsFor]
      · rw [findMap_updateWith_ne op acc p.2 h]
        simp [pairsFor, List.filterMap_cons, if_neg h]

theorem foldl_mapStep_eq (emotions acc : List (String × ℚ)) :
    emotions.foldl
      (fun categoryScores p =>
        match (findMap MODEL_TO_CATEGORY (lowerStr p.1)).join with
        | some category => updateWith max categoryScores category p.2
        | none => categoryScores) acc
    = (resolvedPairs emotions).foldl (fun m p => updateWith max m p.1 p.2) acc := by
  induction emotions generalizing acc with
  | nil => simp [resolvedPairs]
  | cons p rest ih =>
      simp only [List.foldl_cons, resolvedPairs, List.filterMap_cons]
      cases hj : (findMap MODEL_TO_CATEGORY (lowerStr p.1)).join with
      | none => simp only [hj, Option.map_none]; exact ih acc
      | some c =>
          simp only [hj, Option.map_some, List.foldl_cons]
          exact ih _

theorem mapToCategories_eq (emotions : List (String × ℚ)) :
    mapToCategories emotions =
      (resolvedPairs emotions).foldl (fun m p => updateWith max m p.1 p.2) [] :=
  foldl_mapStep_eq emotions []

theorem foldl_genreStep_eq (genres : List String) (acc : List (String × ℚ)) :
    genres.foldl
      (fun emotionScores genre =>
        match findMap GENRE_EMOTION_MAP (trimStr (lowerStr genre)) with
        | some genreEmotions =>
            genreEmotions.foldl
              (fun acc2 p => updateWith (fun a s => (a + s) / 2) acc2 p.1 p.2)
              emotionScores
        | none => emotionScores) acc
    = (genrePairs genres).foldl
        (fun m p => updateWith (fun a s => (a + s) / 2) m p.1 p.2) acc := by
  induction genres generalizing acc with
  | nil => simp [genrePairs]
  | cons g rest ih =>
      simp only [List.foldl_cons, genrePairs]
      cases hg : findMap GENRE_EMOTION_MAP (trimStr (lowerStr g)) with
      | none => simpa using ih acc
      | some m =>
          simp only [List.foldl_append]
          exact ih _

theorem getGenreEmotions_eq (genres : List String) :
    getGenreEmotions genres =
      (genrePairs genres).foldl
        (fun m p => updateWith (fun a s => (a + s) / 2) m p.1 p.2) [] := by
  cases genres with
  | nil => simp [getGenreEmotions, genrePairs]
  | cons g rest =>
      rw [getGenreEmotions, if_neg (by simp)]
      exact foldl_genreStep_eq (g :: rest) []

/-! ## Claims C4 and C7: signal-mapper combination rules -/

/-- C4: in the Genre Heuristic Model, the scores that several known genres
contribute to one taxonomy category are combined by a running average in
input genre order — a left fold of `(acc + s) / 2` whose starting value is
the first contributing genre's score taken as-is; a category no genre
contributes to is absent. -/
theorem genre_running_average (genres : List String) (cat : String) :
    findMap (getGenreEmotions genres) cat =
      match genreScoresFor genres cat with
      | [] => none
      | s :: rest => some (rest.foldl (fun acc v => (acc + v) / 2) s) := by
  rw [getGenreEmotions_eq, findMap_foldl_updateWith]
  show combineRun _ none (genreScoresFor genres cat) = _
  cases h : genreScoresFor genres cat with
  | nil => simp [combineRun]
  | cons s rest => simp [combineRun, combineRun_some]

/-- C7: the Classifier-Output Mapper assigns each taxonomy category the
maximum of the scores of all external labels that map to it (a left
`max` fold), and labels that resolve to nothing are dropped: a category no
label maps to is absent. -/
theorem classifier_max_combination (emotions : List (String × ℚ)) (cat : String) :
    findMap (mapToCategories emotions) cat =
      match modelScoresFor emotions cat with
      | [] => none
      | s :: rest => some (rest.foldl max s) := by
  rw [mapToCategories_eq, findMap_foldl_updateWith]
  show combineRun _ none (modelScoresFor emotions cat) = _
  cases h : modelScoresFor emotions cat with
  | nil => simp [combineRun]
  | cons s rest => simp [combineRun, combineRun_some]

/-! ## Stable descending sort lemmas -/

theorem insertDesc_perm {β : Type} (x : β × ℚ) (l : List (β × ℚ)) :
    (insertDesc x l).Perm (x :: l) := by
  induction l with
  | nil => exact List.Perm.refl _
  | cons y rest ih =>
      by_cases h : x.2 < y.2
      · rw [insertDesc, if_pos h]
        exact (ih.cons y).trans (List.Perm.swap x y rest)
      · rw [insertDesc, if_neg h]

theorem sortDesc_perm {β : Type} (l : List (β × ℚ)) : (sortDesc l).Perm l := by
  induction l with
  | nil => exact List.Perm.refl _
  | cons x rest ih =>
      exact (insertDesc_perm x (sortDesc rest)).trans (ih.cons x)

theorem sortDesc_length {β : Type} (l : List (β × ℚ)) :
    (sortDesc l).length = l.length :=
  (sortDesc_perm l).length_eq

theorem insertDesc_pairwise {β : Type} (p : β → β → Prop) (x : β × ℚ)
    (l : List (β × ℚ))
    (hl : l.Pairwise (fun a b => b.2 < a.2 ∨ (a.2 = b.2 ∧ p a.1 b.1)))
    (hx : ∀ y ∈ l, p x.1 y.1) :
    (insertDesc x l).Pairwise (fun a b => b.2 < a.2 ∨ (a.2 = b.2 ∧ p a.1 b.1)) := by
  induction l with
  | nil => simp [insertDesc]
  | cons y rest ih =>
      rw [List.pairwise_cons] at hl
      obtain ⟨hy, hrest⟩ := hl
      by_cases h : x.2 < y.2
      · rw [insertDesc, if_pos h]
        rw [List.pairwise_cons]
        refine ⟨?_, ih hrest fun z hz => hx z (List.mem_cons_of_mem _ hz)⟩
        intro z hz
        rcases List.mem_cons.mp ((insertDesc_perm x rest).mem_iff.mp hz) with rfl | hz
        · exact Or.inl h
        · exact hy z hz
      · rw [insertDesc, if_neg h]
        rw [List.pairwise_cons]
        refine ⟨?_, List.pairwise_cons.mpr ⟨hy, hrest⟩⟩
        intro z hz
        rcases List.mem_cons.mp hz with rfl | hz
        · rcases lt_or_eq_of_le (not_lt.mp h) with hlt | heq
          · exact Or.inl hlt
          · exact Or.inr ⟨heq.symm, hx z (List.mem_cons_self _ _)⟩
        · have hzy : z.2 ≤ y.2 := by
            rcases hy z hz with h1 | h2
            · exact le_of_lt h1
            · exact le_of_eq h2.1.symm
          rcases lt_or_eq_of_le (le_trans hzy (not_lt.mp h)) with hlt | heq
          · exact Or.inl hlt
          · exact Or.inr ⟨heq.symm, hx z (List.mem_cons_of_mem _ hz)⟩

theorem sortDesc_pairwise {β : Type} (p : β → β → Prop) (l : List (β × ℚ))
    (h : l.Pairwise fun a b => p a.1 b.1) :
    (sortDesc l).Pairwise (fun a b => b.2 < a.2 ∨ (a.2 = b.2 ∧ p a.1 b.1)) := by
  induction l with
  | nil => simp [sortDesc]
  | cons x rest ih =>
      rw [List.pairwise_cons] at h
      refine insertDesc_pairwise p x (sortDesc rest) (ih h.2) ?_
      intro y hy
      exact h.1 y ((sortDesc_perm rest).mem_iff.mp hy)

theorem insertDesc_const {β : Type} (c : ℚ) (x : β × ℚ) (l : List (β × ℚ))
    (hx : x.2 = c) (hl : ∀ q ∈ l, q.2 = c) : insertDesc x l = x :: l := by
  cases l with
  | nil => rfl
  | cons y rest =>
      rw [insertDesc, if_neg]
      rw [hx, hl y (List.mem_cons_self _ _)]
      exact lt_irrefl c

theorem sortDesc_const {β : Type} (c : ℚ) (l : List (β × ℚ))
    (hl : ∀ q ∈ l, q.2 = c) : sortDesc l = l := by
  induction l with
  | nil => rfl
  | cons x rest ih =>
      rw [sortDesc, ih fun q hq => hl q (List.mem_cons_of_mem _ hq)]
      exact insertDesc_const c x rest (hl x (List.mem_cons_self _ _))
        fun q hq => hl q (List.mem_cons_of_mem _ hq)

/-! ## Scoring-loop lemmas -/

theorem enumScores_length (f : Movie → ℚ) (i : ℕ) (l : List Movie) :
    (enumScores f i l).length = l.length := by
  induction l generalizing i with
  | nil => rfl
  | cons m rest ih => simp [enumScores, ih]

theorem enumScores_le_fst (f : Movie → ℚ) :
    ∀ {i : ℕ} {l : List Movie} {q : ℕ × ℚ}, q ∈ enumScores f i l → i ≤ q.1 := by
  intro i l
  induction l generalizing i with
  | nil => intro q hq; simp [enumScores] at hq
  | cons m rest ih =>
      intro q hq
      rcases List.mem_cons.mp hq with rfl | hq
      · exact le_refl _
      · exact le_trans (Nat.le_succ i) (ih hq)

theorem enumScores_pairwise (f : Movie → ℚ) (i : ℕ) (l : List Movie) :
    (enumScores f i l).Pairwise (fun a b => a.1 < b.1) := by
  induction l generalizing i with
  | nil => simp [enumScores]
  | cons m rest ih =>
      rw [enumScores, List.pairwise_cons]
      exact ⟨fun q hq => lt_of_lt_of_le (Nat.lt_succ_self i) (enumScores_le_fst f hq), ih _⟩

theorem enumFilterScores_le_fst (pred : Movie → Bool) (f : Movie → ℚ) :
    ∀ {i : ℕ} {l : List Movie} {q : ℕ × ℚ}, q ∈ enumFilterScores pred f i l → i ≤ q.1 := by
  intro i l
  induction l generalizing i with
  | nil => intro q hq; simp [enumFilterScores] at hq
  | cons m rest ih =>
      intro q hq
      rw [enumFilterScores] at hq
      by_cases hp : pred m
      · rw [if_pos hp] at hq
        rcases List.mem_cons.mp hq with rfl | hq
        · exact le_refl _
        · exact le_trans (Nat.le_succ i) (ih hq)
      · rw [if_neg hp] at hq
        exact le_trans (Nat.le_succ i) (ih hq)

theorem enumFilterScores_pairwise (pred : Movie → Bool) (f : Movie → ℚ) (i : ℕ)
    (l : List Movie) :
    (enumFilterScores pred f i l).Pairwise (fun a b => a.1 < b.1) := by
  induction l generalizing i with
  | nil => simp [enumFilterScores]
  | cons m rest ih =>
      rw [enumFilterScores]
      by_cases hp : pred m
      · rw [if_pos hp, List.pairwise_cons]
        exact ⟨fun q hq => lt_of_lt_of_le (Nat.lt_succ_self i)
          (enumFilterScores_le_fst pred f hq), ih _⟩
      · rw [if_neg hp]
        exact ih _

theorem enumFilterScores_mem (pred : Movie → Bool) (f : Movie → ℚ) :
    ∀ {i : ℕ} {l : List Movie} {q : ℕ × ℚ}, q ∈ enumFilterScores pred f i l →
      ∃ j m, l[j]? = some m ∧ q.1 = i + j ∧ pred m = true ∧ q.2 = f m := by
  intro i l
  induction l generalizing i with
  | nil => intro q hq; simp [enumFilterScores] at hq
  | cons m rest ih =>
      intro q hq
      rw [enumFilterScores] at hq
      by_cases hp : pred m
      · rw [if_pos hp] at hq
        rcases List.mem_cons.mp hq with rfl | hq
        · exact ⟨0, m, by simp, by simp, hp, rfl⟩
        · obtain ⟨j, m', hget, hfst, hpred, hval⟩ := ih hq
          exact ⟨j + 1, m', by simpa using hget, by omega, hpred, hval⟩
      · rw [if_neg hp] at hq
        obtain ⟨j, m', hget, hfst, hpred, hval⟩ := ih hq
        exact ⟨j + 1, m', by simpa using hget, by omega, hpred, hval⟩

theorem enumFilterScores_snd (pred : Movie → Bool) (f : Movie → ℚ)
    (hf : ∀ m, f m = 0) :
    ∀ {i : ℕ} {l : List Movie} {q : ℕ × ℚ}, q ∈ enumFilterScores pred f i l → q.2 = 0 := by
  intro i l
  induction l generalizing i with
  | nil => intro q hq; simp [enumFilterScores] at hq
  | cons m rest ih =>
      intro q hq
      rw [enumFilterScores] at hq
      by_cases hp : pred m
      · rw [if_pos hp] at hq
        rcases List.mem_cons.mp hq with rfl | hq
        · exact hf m
        · exact ih hq
      · rw [if_neg hp] at hq
        exact ih hq

/-! ## Rounding lemmas -/

theorem roundDec_mono (n : ℕ) {x y : ℚ} (h : x ≤ y) : roundDec n x ≤ roundDec n y := by
  unfold roundDec
  have hp : (0 : ℚ) < 10 ^ n := by positivity
  have h2 : x * 10 ^ n + 1 / 2 ≤ y * 10 ^ n + 1 / 2 := by nlinarith
  have h3 : (⌊x * 10 ^ n + 1 / 2⌋ : ℚ) ≤ (⌊y * 10 ^ n + 1 / 2⌋ : ℚ) :=
    Int.cast_le.mpr (Int.floor_le_floor h2)
  exact (div_le_div_iff_of_pos_right hp).mpr h3

theorem roundDec_mem {n : ℕ} {lo hi x : ℚ} (hlo : roundDec n lo = lo)
    (hhi : roundDec n hi = hi) (h1 : lo ≤ x) (h2 : x ≤ hi) :
    lo ≤ roundDec n x ∧ roundDec n x ≤ hi :=
  ⟨hlo ▸ roundDec_mono n h1, hhi ▸ roundDec_mono n h2⟩

theorem roundDec_one_zero : roundDec 1 0 = 0 := by with_unfolding_all decide

theorem roundDec_one_ten : roundDec 1 10 = 10 := by with_unfolding_all decide

theorem roundDec_three_zero : roundDec 3 0 = 0 := by with_unfolding_all decide

theorem roundDec_three_one : roundDec 3 1 = 1 := by with_unfolding_all decide

theorem roundDec_three_centile : roundDec 3 (1 / 100) = 1 / 100 := by
  with_unfolding_all decide

theorem roundDec_two_half : roundDec 2 (1 / 2) = 1 / 2 := by with_unfolding_all decide

theorem roundDec_two_ninety : roundDec 2 (9 / 10) = 9 / 10 := by
  with_unfolding_all decide

/-! ## Claim C1: the match-score formula -/

/-- C1: for every catalog item, the match score computed by the loop of
`_calculate_match_score` equals the specification's closed formula:
0.4 times the matched fraction of target categories, plus 0.3 times the
intensity match, plus 0.3 times the comfort match, plus a 0.1 bonus when
the resolved primary category is among the item's dominant emotions, capped
at 1. -/
theorem match_score_formula (movie : Movie) (moodParams : MoodParams)
    (desired : List String) :
    calcMatchScore movie moodParams desired = specMatchScore movie moodParams desired := by
  simp only [calcMatchScore, specMatchScore]
  cases hp : moodParams.primary with
  | none =>
      by_cases hd : desired = []
      · subst hd
        simp only [List.countP_nil, List.length_nil, Nat.cast_zero, zero_div,
          div_zero, ite_self]
        congr 1
        ring
      · simp only [if_neg hd]
        congr 1
        ring
  | some p =>
      by_cases hm : p ∈ movie.dominantEmotions
      · by_cases hd : desired = []
        · subst hd
          simp only [if_pos hm, List.countP_nil, List.length_nil, Nat.cast_zero,
            zero_div, div_zero, ite_self]
          congr 1
          ring
        · simp only [if_neg hd, if_pos hm]
          congr 1
          ring
      · by_cases hd : desired = []
        · subst hd
          simp only [if_neg hm, List.countP_nil, List.length_nil, Nat.cast_zero,
            zero_div, div_zero, ite_self]
          congr 1
          ring
        · simp only [if_neg hd, if_neg hm]
          congr 1
          ring

/-! ## Claim C3: ranking order of `recommend_by_mood` -/

theorem moodScores_length (catalog : List Movie) (currentMood desiredFeeling : String) :
    (moodScores catalog currentMood desiredFeeling).length = catalog.length :=
  enumScores_length _ 0 catalog

/-- C3: for a fixed catalog and query, `recommend_by_mood` takes the first
`n` entries of a permutation of the scored catalog that is ordered by
strictly descending match score with equal-score items in catalog order (a
deterministic total order); its length is `min n catalog.length`, so an `n`
beyond the catalog size returns all items. -/
theorem rank_by_mood_order (catalog : List Movie) (currentMood desiredFeeling : String)
    (n : ℕ) :
    recommendByMood catalog currentMood desiredFeeling n
        = (sortDesc (moodScores catalog currentMood desiredFeeling)).take n
    ∧ (sortDesc (moodScores catalog currentMood desiredFeeling)).Perm
        (moodScores catalog currentMood desiredFeeling)
    ∧ (sortDesc (moodScores catalog currentMood desiredFeeling)).Pairwise
        (fun a b => b.2 < a.2 ∨ (a.2 = b.2 ∧ a.1 < b.1))
    ∧ (recommendByMood catalog currentMood desiredFeeling n).length = min n catalog.length
    ∧ (catalog.length ≤ n →
        recommendByMood catalog currentMood desiredFeeling n
          = sortDesc (moodScores catalog currentMood desiredFeeling)) := by
  refine ⟨rfl, sortDesc_perm _,
    sortDesc_pairwise (fun i j => i < j) _ (enumScores_pairwise _ 0 catalog), ?_, ?_⟩
  · rw [recommendByMood, List.length_take, sortDesc_length, moodScores_length]
  · intro h
    rw [recommendByMood, List.take_of_length_le]
    rw [sortDesc_length, moodScores_length]
    exact h

theorem rank_by_mood_order_witness :
    sampleCatalog.length ≤ 5 ∧
      recommendByMood sampleCatalog "stressed" "feel-good" 5
        = sortDesc (moodScores sampleCatalog "stressed" "feel-good") :=
  ⟨by decide, (rank_by_mood_order sampleCatalog "stressed" "feel-good" 5).2.2.2.2 (by decide)⟩

/-! ## Claim C9: synthesis error handling -/

/-- C9: `create_emotion_profile` fails exactly when the weight sum is zero
(the normalisation's division by zero); any nonzero weight sum is
normalised — the result is the same as with the weights divided by their
sum, which sum to 1 — and a classifier invocation that throws is handled
identically to one returning an empty mapping. -/
theorem synthesize_error_handling (o : Option ℕ)
    (r : Except Unit (List (String × ℚ))) (g : List String) (w1 w2 : ℚ) :
    (createEmotionProfile o r g w1 w2 = none ↔ w1 + w2 = 0)
    ∧ (w1 + w2 ≠ 0 →
        createEmotionProfile o r g w1 w2
          = createEmotionProfile o r g (w1 / (w1 + w2)) (w2 / (w1 + w2)))
    ∧ createEmotionProfile o (.error ()) g w1 w2 = createEmotionProfile o (.ok []) g w1 w2 := by
  refine ⟨?_, ?_, ?_⟩
  · by_cases h : w1 + w2 = 0 <;> simp [createEmotionProfile, h]
  · intro h
    have hsum : w1 / (w1 + w2) + w2 / (w1 + w2) = 1 := by field_simp
    rw [createEmotionProfile, createEmotionProfile, if_neg h, if_neg (by rw [hsum]; norm_num)]
    simp only [hsum, div_one]
  · rfl

theorem synthesize_error_handling_witness :
    (0.6 : ℚ) + 0.4 ≠ 0 ∧
      createEmotionProfile (some 30) (.ok []) ["comedy"] 0.6 0.4
        = createEmotionProfile (some 30) (.ok []) ["comedy"]
            (0.6 / (0.6 + 0.4)) (0.4 / (0.6 + 0.4)) :=
  ⟨by norm_num,
   (synthesize_error_handling (some 30) (.ok []) ["comedy"] 0.6 0.4).2.1 (by norm_num)⟩

/-! ## Claim C6: journey planning -/

theorem recommendByMood_length (catalog : List Movie) (currentMood desiredFeeling : String)
    (n : ℕ) :
    (recommendByMood catalog currentMood desiredFeeling n).length = min n catalog.length := by
  rw [recommendByMood, List.length_take, sortDesc_length, moodScores_length]

/-- C6 counterexample: on a one-movie catalog (non-empty) with
`n_movies = 4 ≥ 1`, `get_mood_journey` returns only 3 recommendations, not
`n_movies`: the middle ranking call cannot supply `n_movies - 2` items. -/
theorem journey_shortfall :
    [sampleMovieA] ≠ ([] : List Movie) ∧ (1 : ℕ) ≤ 4 ∧
      (getMoodJourney [sampleMovieA] "sad" "inspired" 4).length ≠ 4 := by
  refine ⟨by decide, by norm_num, ?_⟩
  with_unfolding_all decide

/-- C6 amended: for a non-empty catalog and `n_movies ≥ 1`,
`get_mood_journey` is the three ranking calls' results concatenated in
order — `rank_by_mood(start, start, 1)`, then for `n_movies ≥ 3`
`rank_by_mood(start, end, n_movies - 2)`, then
`rank_by_mood("neutral", end, 1)` — without de-duplication, truncated to
`n_movies`; its length is `min n_movies (2 + middle)` where `middle` is
`min (n_movies - 2) catalog.length` for `n_movies ≥ 3` and `0` otherwise
(so exactly `n_movies` only when the catalog is large enough). -/
theorem journey_structure (catalog : List Movie) (startMood endMood : String)
    (n : ℕ) (hcat : catalog ≠ []) (hn : 1 ≤ n) :
    getMoodJourney catalog startMood endMood n
        = (recommendByMood catalog startMood startMood 1
            ++ ((if 3 ≤ n then recommendByMood catalog startMood endMood (n - 2) else [])
              ++ recommendByMood catalog "neutral" endMood 1)).take n
    ∧ (getMoodJourney catalog startMood endMood n).length
        = min n (2 + if 3 ≤ n then min (n - 2) catalog.length else 0) := by
  have hcl : 0 < catalog.length := List.length_pos.mpr hcat
  have h1 : (recommendByMood catalog startMood startMood 1).length = 1 := by
    rw [recommendByMood_length]
    omega
  have h3 : (recommendByMood catalog "neutral" endMood 1).length = 1 := by
    rw [recommendByMood_length]
    omega
  obtain ⟨a, ha⟩ := List.length_eq_one.mp h1
  obtain ⟨c, hc⟩ := List.length_eq_one.mp h3
  have heq : getMoodJourney catalog startMood endMood n
      = (recommendByMood catalog startMood startMood 1
          ++ ((if 3 ≤ n then recommendByMood catalog startMood endMood (n - 2) else [])
            ++ recommendByMood catalog "neutral" endMood 1)).take n := by
    rw [getMoodJourney, ha, hc]
    simp [List.append_assoc]
  refine ⟨heq, ?_⟩
  rw [heq, List.length_take, List.length_append, List.length_append, h1, h3]
  by_cases h3n : 3 ≤ n
  · rw [if_pos h3n, if_pos h3n, recommendByMood_length]
    omega
  · rw [if_neg h3n, if_neg h3n]
    simp

theorem journey_structure_witness :
    sampleCatalog ≠ ([] : List Movie) ∧ (1 : ℕ) ≤ 3 ∧
      (getMoodJourney sampleCatalog "sad" "inspired" 3).length
        = min 3 (2 + if 3 ≤ 3 then min (3 - 2) sampleCatalog.length else 0) :=
  ⟨by decide, by norm_num,
   (journey_structure sampleCatalog "sad" "inspired" 3 (by decide) (by norm_num)).2⟩

/-! ## Claim C8: ranking by explicit emotions -/

/-- C8: `recommend_by_emotions` takes the first `n` entries of a stable
descending sort of the scored survivors of the intensity/comfort filter:
every returned entry is a catalog item that passes the filter, scored
solely by the fraction of target categories matched; the sorted list is a
permutation of the filtered one and is ordered by strictly descending score
with equal scores in catalog order; with an empty target set no sorting
happens (every score is 0) and the result is the filtered catalog order. -/
theorem rank_by_emotions_order (catalog : List Movie) (targets : List String)
    (minIntensity maxIntensity minComfort : ℚ) (n : ℕ) :
    recommendByEmotions catalog targets minIntensity maxIntensity minComfort n
        = (sortDesc (emotionScoresList catalog targets minIntensity maxIntensity minComfort)).take n
    ∧ (sortDesc (emotionScoresList catalog targets minIntensity maxIntensity minComfort)).Perm
        (emotionScoresList catalog targets minIntensity maxIntensity minComfort)
    ∧ (sortDesc (emotionScoresList catalog targets minIntensity maxIntensity minComfort)).Pairwise
        (fun a b => b.2 < a.2 ∨ (a.2 = b.2 ∧ a.1 < b.1))
    ∧ (∀ q ∈ recommendByEmotions catalog targets minIntensity maxIntensity minComfort n,
        ∃ m, catalog[q.1]? = some m
          ∧ emotionFilter minIntensity maxIntensity minComfort m = true
          ∧ q.2 = emotionFractionScore targets m)
    ∧ (targets = [] →
        recommendByEmotions catalog targets minIntensity maxIntensity minComfort n
            = (emotionScoresList catalog targets minIntensity maxIntensity minComfort).take n
          ∧ ∀ q ∈ emotionScoresList catalog targets minIntensity maxIntensity minComfort,
              q.2 = 0) := by
  refine ⟨rfl, sortDesc_perm _,
    sortDesc_pairwise (fun i j => i < j) _ (enumFilterScores_pairwise _ _ 0 catalog),
    ?_, ?_⟩
  · intro q hq
    have hq2 : q ∈ emotionScoresList catalog targets minIntensity maxIntensity minComfort :=
      (sortDesc_perm _).mem_iff.mp (List.take_subset n _ hq)
    obtain ⟨j, m, hget, hfst, hpred, hval⟩ := enumFilterScores_mem _ _ hq2
    refine ⟨m, ?_, hpred, hval⟩
    rw [hfst]
    simpa using hget
  · intro ht
    have hall : ∀ q ∈ emotionScoresList catalog targets minIntensity maxIntensity minComfort,
        q.2 = 0 := by
      intro q hq
      exact enumFilterScores_snd _ _ (fun m => by simp [emotionFractionScore, ht]) hq
    refine ⟨?_, hall⟩
    rw [recommendByEmotions, sortDesc_const 0 _ hall]

theorem rank_by_emotions_order_witness :
    (([] : List String) = []) ∧
      (recommendByEmotions sampleCatalog [] 0 10 0 5
          = (emotionScoresList sampleCatalog [] 0 10 0).take 5
        ∧ ∀ q ∈ emotionScoresList sampleCatalog [] 0 10 0, q.2 = 0) :=
  ⟨rfl, (rank_by_emotions_order sampleCatalog [] 0 10 0 5).2.2.2.2 rfl⟩

/-! ## Score-range lemmas for the profile synthesiser -/

theorem lookupD_pres (P : ℚ → Prop) (m : List (String × ℚ)) (k : String)
    (h0 : P 0) (h : ∀ q ∈ m, P q.2) : P (lookupD m k) := by
  induction m with
  | nil => exact h0
  | cons p rest ih =>
      obtain ⟨k', v⟩ := p
      rw [lookupD]
      by_cases hk : k' = k
      · rw [if_pos hk]
        exact h (k', v) (List.mem_cons_self _ _)
      · rw [if_neg hk]
        exact ih fun q hq => h q (List.mem_cons_of_mem _ hq)

theorem updateWith_values (op : ℚ → ℚ → ℚ) (P : ℚ → Prop) (k : String) (v : ℚ)
    (hv : P v) (hop : ∀ a b, P a → P b → P (op a b)) :
    ∀ (m : List (String × ℚ)), (∀ q ∈ m, P q.2) → ∀ q ∈ updateWith op m k v, P q.2 := by
  intro m
  induction m with
  | nil =>
      intro _ q hq
      rw [updateWith] at hq
      rcases List.mem_cons.mp hq with rfl | hq
      · exact hv
      · simp at hq
  | cons p rest ih =>
      intro hm q hq
      obtain ⟨k', v'⟩ := p
      rw [updateWith] at hq
      by_cases h : k' = k
      · rw [if_pos h] at hq
        rcases List.mem_cons.mp hq with rfl | hq
        · exact hop _ _ (hm (k', v') (List.mem_cons_self _ _)) hv
        · exact hm q (List.mem_cons_of_mem _ hq)
      · rw [if_neg h] at hq
        rcases List.mem_cons.mp hq with rfl | hq
        · exact hm (k', v') (List.mem_cons_self _ _)
        · exact ih (fun r hr => hm r (List.mem_cons_of_mem _ hr)) q hq

theorem foldl_updateWith_values (op : ℚ → ℚ → ℚ) (P : ℚ → Prop)
    (hop : ∀ a b, P a → P b → P (op a b)) :
    ∀ (pairs acc : List (String × ℚ)), (∀ p ∈ pairs, P p.2) → (∀ q ∈ acc, P q.2) →
      ∀ q ∈ pairs.foldl (fun m p => updateWith op m p.1 p.2) acc, P q.2 := by
  intro pairs
  induction pairs with
  | nil => intro acc _ hacc q hq; exact hacc q hq
  | cons p rest ih =>
      intro acc hpairs hacc q hq
      rw [List.foldl_cons] at hq
      exact ih _ (fun r hr => hpairs r (List.mem_cons_of_mem _ hr))
        (updateWith_values op P p.1 p.2 (hpairs p (List.mem_cons_self _ _)) hop acc hacc)
        q hq

theorem resolvedPairs_values (P : ℚ → Prop) (emotions : List (String × ℚ))
    (h : ∀ p ∈ emotions, P p.2) : ∀ q ∈ resolvedPairs emotions, P q.2 := by
  intro q hq
  rw [resolvedPairs] at hq
  obtain ⟨p, hp, hf⟩ := List.mem_filterMap.mp hq
  obtain ⟨c, _, hc⟩ := Option.map_eq_some'.mp hf
  rw [← hc]
  exact h p hp

theorem mapToCategories_values (emotions : List (String × ℚ))
    (h : ∀ p ∈ emotions, 0 ≤ p.2 ∧ p.2 ≤ 1) :
    ∀ q ∈ mapToCategories emotions, 0 ≤ q.2 ∧ q.2 ≤ 1 := by
  rw [mapToCategories_eq]
  exact foldl_updateWith_values max (fun x => 0 ≤ x ∧ x ≤ 1)
    (fun a b ha hb => ⟨le_max_of_le_left ha.1, max_le ha.2 hb.2⟩)
    _ [] (resolvedPairs_values (fun x => 0 ≤ x ∧ x ≤ 1) emotions h) (by simp)

theorem GENRE_TABLE_values : ∀ e ∈ GENRE_EMOTION_MAP, ∀ p ∈ e.2, 0 ≤ p.2 ∧ p.2 ≤ 1 := by
  intro e he p hp
  fin_cases he <;> fin_cases hp <;> norm_num

theorem findMap_mem {α : Type} :
    ∀ (l : List (String × α)) (k : String) (v : α), findMap l k = some v → (k, v) ∈ l := by
  intro l
  induction l with
  | nil => intro k v h; simp [findMap] at h
  | cons p rest ih =>
      intro k v h
      obtain ⟨k', v'⟩ := p
      rw [findMap] at h
      by_cases hk : k' = k
      · rw [if_pos hk] at h
        subst hk
        rw [Option.some_inj] at h
        subst h
        exact List.mem_cons_self _ _
      · rw [if_neg hk] at h
        exact List.mem_cons_of_mem _ (ih k v h)

theorem genrePairs_values (genres : List String) :
    ∀ p ∈ genrePairs genres, 0 ≤ p.2 ∧ p.2 ≤ 1 := by
  induction genres with
  | nil => simp [genrePairs]
  | cons g rest ih =>
      intro p hp
      rw [genrePairs] at hp
      cases hg : findMap GENRE_EMOTION_MAP (trimStr (lowerStr g)) with
      | none =>
          rw [hg] at hp
          simp only [List.nil_append] at hp
          exact ih p hp
      | some m =>
          rw [hg] at hp
          rcases List.mem_append.mp hp with hp | hp
          · exact GENRE_TABLE_values _ (findMap_mem _ _ _ hg) p hp
          · exact ih p hp

theorem getGenreEmotions_values (genres : List String) :
    ∀ q ∈ getGenreEmotions genres, 0 ≤ q.2 ∧ q.2 ≤ 1 := by
  rw [getGenreEmotions_eq]
  exact foldl_updateWith_values (fun a s => (a + s) / 2) (fun x => 0 ≤ x ∧ x ≤ 1)
    (fun a b ha hb => ⟨by linarith [ha.1, hb.1], by linarith [ha.2, hb.2]⟩)
    _ [] (genrePairs_values genres) (by simp)

theorem lookupD_unit {m : List (String × ℚ)} (k : String)
    (h : ∀ q ∈ m, 0 ≤ q.2 ∧ q.2 ≤ 1) : 0 ≤ lookupD m k ∧ lookupD m k ≤ 1 :=
  lookupD_pres (fun x => 0 ≤ x ∧ x ≤ 1) m k ⟨le_refl 0, by norm_num⟩ h

theorem combinedEmotions_mem {nlp genre : List (String × ℚ)} {w1 w2 : ℚ}
    {q : String × ℚ} (hq : q ∈ combinedEmotions nlp genre w1 w2) :
    q.1 ∈ EMOTION_CATEGORIES
      ∧ q.2 = roundDec 3 (lookupD nlp q.1 * w1 + lookupD genre q.1 * w2)
      ∧ 0.01 < lookupD nlp q.1 * w1 + lookupD genre q.1 * w2 := by
  rw [combinedEmotions] at hq
  obtain ⟨c, hc, hf⟩ := List.mem_filterMap.mp hq
  dsimp only at hf
  by_cases hcond : (0.01 : ℚ) < lookupD nlp c * w1 + lookupD genre c * w2
  · rw [if_pos hcond, Option.some_inj] at hf
    subst hf
    exact ⟨hc, rfl, hcond⟩
  · rw [if_neg hcond] at hf
    exact absurd hf (by simp)

theorem combinedEmotions_keys_pairwise (nlp genre : List (String × ℚ)) (w1 w2 : ℚ) :
    (combinedEmotions nlp genre w1 w2).Pairwise fun a b => taxOrder a.1 < taxOrder b.1 := by
  have base : EMOTION_CATEGORIES.Pairwise fun a b => taxOrder a < taxOrder b := by decide
  rw [combinedEmotions]
  rw [List.pairwise_filterMap]
  refine base.imp_of_mem ?_
  intro a b _ _ hab x hx y hy
  dsimp only at hx hy
  have hxa : x.1 = a := by
    by_cases h : (0.01 : ℚ) < lookupD nlp a * w1 + lookupD genre a * w2
    · rw [if_pos h] at hx
      cases hx
      rfl
    · rw [if_neg h] at hx
      cases hx
  have hyb : y.1 = b := by
    by_cases h : (0.01 : ℚ) < lookupD nlp b * w1 + lookupD genre b * w2
    · rw [if_pos h] at hy
      cases hy
      rfl
    · rw [if_neg h] at hy
      cases hy
  rw [hxa, hyb]
  exact hab

theorem combinedEmotions_pos {nlp genre : List (String × ℚ)} {w1 w2 : ℚ} :
    ∀ q ∈ combinedEmotions nlp genre w1 w2, 0 < q.2 := by
  intro q hq
  obtain ⟨_, hval, hcond⟩ := combinedEmotions_mem hq
  have h1 : roundDec 3 (1 / 100) ≤ roundDec 3 (lookupD nlp q.1 * w1 + lookupD genre q.1 * w2) :=
    roundDec_mono 3 (by linarith [show (0.01 : ℚ) = 1 / 100 from by norm_num])
  rw [roundDec_three_centile] at h1
  rw [hval]
  linarith

theorem lookupD_of_not_key {m : List (String × ℚ)} {k : String}
    (h : ∀ q ∈ m, q.1 ≠ k) : lookupD m k = 0 := by
  induction m with
  | nil => rfl
  | cons p rest ih =>
      obtain ⟨k', v⟩ := p
      rw [lookupD, if_neg (h (k', v) (List.mem_cons_self _ _))]
      exact ih fun q hq => h q (List.mem_cons_of_mem _ hq)

theorem lookupD_of_mem_nodup {m : List (String × ℚ)}
    (hnd : (m.map Prod.fst).Nodup) {k : String} {v : ℚ} (hm : (k, v) ∈ m) :
    lookupD m k = v := by
  induction m with
  | nil => simp at hm
  | cons p rest ih =>
      obtain ⟨k', v'⟩ := p
      rw [List.map_cons, List.nodup_cons] at hnd
      rcases List.mem_cons.mp hm with heq | hm
      · rw [Prod.mk.injEq] at heq
        rw [lookupD, if_pos heq.1.symm]
        exact heq.2.symm
      · rw [lookupD]
        by_cases hk : k' = k
        · exfalso
          apply hnd.1
          rw [hk]
          exact List.mem_map.mpr ⟨(k, v), hm, rfl⟩
        · rw [if_neg hk]
          exact ih hnd.2 hm

/-- The dominant-emotions selection: length at most 3, every selected
category's stored score is at least every unselected category's score
(absent categories scoring 0), and the selection is ordered by descending
stored score with ties in taxonomy order. -/
theorem dominant_spec (combined : List (String × ℚ))
    (hpw : combined.Pairwise fun a b => taxOrder a.1 < taxOrder b.1)
    (hpos : ∀ q ∈ combined, 0 < q.2) :
    (((sortDesc combined).take 3).map Prod.fst).length ≤ 3
    ∧ (∀ c ∈ ((sortDesc combined).take 3).map Prod.fst,
        ∀ c' ∉ ((sortDesc combined).take 3).map Prod.fst,
          lookupD combined c' ≤ lookupD combined c)
    ∧ (((sortDesc combined).take 3).map Prod.fst).Pairwise
        (fun a b => lookupD combined b < lookupD combined a
          ∨ (lookupD combined a = lookupD combined b ∧ taxOrder a < taxOrder b)) := by
  have hnd : (combined.map Prod.fst).Nodup :=
    List.Pairwise.map Prod.fst
      (fun {a b} (h : taxOrder a.1 < taxOrder b.1) (heq : a.1 = b.1) => by
        rw [heq] at h
        exact lt_irrefl _ h)
      hpw
  have spw := sortDesc_pairwise (fun a b => taxOrder a < taxOrder b) combined hpw
  have sperm := sortDesc_perm combined
  refine ⟨?_, ?_, ?_⟩
  · rw [List.length_map, List.length_take]
    exact min_le_left 3 _
  · intro c hc c' hc'
    obtain ⟨⟨c1, v1⟩, hqc_take, rfl⟩ := List.mem_map.mp hc
    have hqc_comb : (c1, v1) ∈ combined :=
      sperm.mem_iff.mp (List.take_subset _ _ hqc_take)
    by_cases hmem : ∃ v', (c', v') ∈ combined
    · obtain ⟨v', hv'⟩ := hmem
      have hs' : (c', v') ∈ (sortDesc combined).take 3 ++ (sortDesc combined).drop 3 := by
        rw [List.take_append_drop]
        exact sperm.mem_iff.mpr hv'
      rcases List.mem_append.mp hs' with h | h
      · exact absurd (List.mem_map.mpr ⟨(c', v'), h, rfl⟩) hc'
      · have hsplit : ((sortDesc combined).take 3 ++ (sortDesc combined).drop 3).Pairwise
            (fun a b => b.2 < a.2 ∨ (a.2 = b.2 ∧ taxOrder a.1 < taxOrder b.1)) := by
          rw [List.take_append_drop]
          exact spw
        have hR := (List.pairwise_append.mp hsplit).2.2 (c1, v1) hqc_take (c', v') h
        have hle : v' ≤ v1 := by
          rcases hR with h1 | h2
          · exact le_of_lt h1
          · exact le_of_eq h2.1.symm
        rw [lookupD_of_mem_nodup hnd hv', lookupD_of_mem_nodup hnd hqc_comb]
        exact hle
    · push_neg at hmem
      have hz : lookupD combined c' = 0 :=
        lookupD_of_not_key fun q hq heq => hmem q.2 (by rw [← heq, Prod.mk.eta]; exact hq)
      rw [hz, lookupD_of_mem_nodup hnd hqc_comb]
      exact le_of_lt (hpos _ hqc_comb)
  · have htake := spw.sublist (List.take_sublist 3 (sortDesc combined))
    rw [List.pairwise_map]
    refine htake.imp_of_mem ?_
    intro a b ha hb hR
    have hac : a ∈ combined := sperm.mem_iff.mp (List.take_subset _ _ ha)
    have hbc : b ∈ combined := sperm.mem_iff.mp (List.take_subset _ _ hb)
    have hla : lookupD combined a.1 = a.2 :=
      lookupD_of_mem_nodup hnd (by rw [Prod.mk.eta]; exact hac)
    have hlb : lookupD combined b.1 = b.2 :=
      lookupD_of_mem_nodup hnd (by rw [Prod.mk.eta]; exact hbc)
    rw [hla, hlb]
    exact hR

/-! ## Claim C2: the dominant-emotions invariant -/

/-- C2: whenever synthesis succeeds, the profile's dominant-emotions list
has length at most 3, every listed category's stored combined score is at
least every unlisted category's (categories absent from the score map
counting as 0), and the list is ordered by descending combined score with
ties broken by taxonomy declaration order. -/
theorem dominant_invariant (o : Option ℕ) (r : Except Unit (List (String × ℚ)))
    (g : List String) (w1 w2 : ℚ) :
    match createEmotionProfile o r g w1 w2 with
    | none => True
    | some prof =>
        prof.dominantEmotions.length ≤ 3
        ∧ (∀ c ∈ prof.dominantEmotions, ∀ c' ∉ prof.dominantEmotions,
            lookupD prof.emotionScores c' ≤ lookupD prof.emotionScores c)
        ∧ prof.dominantEmotions.Pairwise (fun a b =>
            lookupD prof.emotionScores b < lookupD prof.emotionScores a
            ∨ (lookupD prof.emotionScores a = lookupD prof.emotionScores b
              ∧ taxOrder a < taxOrder b)) := by
  rw [createEmotionProfile]
  by_cases h : w1 + w2 = 0
  · rw [if_pos h]
    trivial
  · rw [if_neg h]
    exact dominant_spec _ (combinedEmotions_keys_pairwise _ _ _ _) combinedEmotions_pos

theorem dominant_invariant_witness :
    match createEmotionProfile (some 30) (.ok [("joy", 1 / 2)]) ["comedy"] 0.6 0.4 with
    | none => True
    | some prof =>
        prof.dominantEmotions.length ≤ 3
        ∧ (∀ c ∈ prof.dominantEmotions, ∀ c' ∉ prof.dominantEmotions,
            lookupD prof.emotionScores c' ≤ lookupD prof.emotionScores c)
        ∧ prof.dominantEmotions.Pairwise (fun a b =>
            lookupD prof.emotionScores b < lookupD prof.emotionScores a
            ∨ (lookupD prof.emotionScores a = lookupD prof.emotionScores b
              ∧ taxOrder a < taxOrder b)) :=
  dominant_invariant (some 30) (.ok [("joy", 1 / 2)]) ["comedy"] 0.6 0.4

/-! ## Range bounds for the derived scalar scores -/

theorem foldl_max_bounds {lo hi : ℚ} :
    ∀ (l : List ℚ) (s : ℚ), lo ≤ s → s ≤ hi → (∀ x ∈ l, lo ≤ x ∧ x ≤ hi) →
      lo ≤ l.foldl max s ∧ l.foldl max s ≤ hi := by
  intro l
  induction l with
  | nil => intro s h1 h2 _; exact ⟨h1, h2⟩
  | cons x rest ih =>
      intro s h1 h2 hl
      rw [List.foldl_cons]
      exact ih (max s x) (le_max_of_le_left h1)
        (max_le h2 (hl x (List.mem_cons_self _ _)).2)
        fun y hy => hl y (List.mem_cons_of_mem _ hy)

theorem getIntensityFromGenres_bounds (genres : List String) :
    0 ≤ getIntensityFromGenres genres ∧ getIntensityFromGenres genres ≤ 10 := by
  rw [getIntensityFromGenres]
  by_cases hs : genres.map (fun genre =>
      let g := trimStr (lowerStr genre)
      if g ∈ HIGH_INTENSITY then (8 : ℚ)
      else if g ∈ MEDIUM_INTENSITY then 5
      else if g ∈ LOW_INTENSITY then 3
      else 5) = []
  · rw [if_pos hs]
    norm_num
  · rw [if_neg hs]
    set scores := genres.map (fun genre =>
      let g := trimStr (lowerStr genre)
      if g ∈ HIGH_INTENSITY then (8 : ℚ)
      else if g ∈ MEDIUM_INTENSITY then 5
      else if g ∈ LOW_INTENSITY then 3
      else 5) with hdef
    have helem : ∀ x ∈ scores, 0 ≤ x ∧ x ≤ 10 := by
      intro x hx
      rw [hdef] at hx
      obtain ⟨gname, _, rfl⟩ := List.mem_map.mp hx
      dsimp only
      split_ifs <;> norm_num
    have hlen : 0 < (scores.length : ℚ) := by
      have : scores ≠ [] := hs
      have : 0 < scores.length := List.length_pos.mpr this
      exact_mod_cast this
    constructor
    · apply div_nonneg _ (le_of_lt hlen)
      exact List.sum_nonneg fun x hx => (helem x hx).1
    · rw [div_le_iff₀ hlen]
      have := List.sum_le_card_nsmul scores 10 fun x hx => (helem x hx).2
      rw [nsmul_eq_mul] at this
      linarith

theorem getComfortFromGenres_bounds (genres : List String) :
    0 ≤ getComfortFromGenres genres ∧ getComfortFromGenres genres ≤ 10 := by
  rw [getComfortFromGenres]
  by_cases hs : genres.map (fun genre =>
      let g := trimStr (lowerStr genre)
      if g ∈ HIGH_COMFORT then (8 : ℚ)
      else if g ∈ MEDIUM_COMFORT then 5
      else if g ∈ LOW_COMFORT then 2
      else 5) = []
  · rw [if_pos hs]
    norm_num
  · rw [if_neg hs]
    set scores := genres.map (fun genre =>
      let g := trimStr (lowerStr genre)
      if g ∈ HIGH_COMFORT then (8 : ℚ)
      else if g ∈ MEDIUM_COMFORT then 5
      else if g ∈ LOW_COMFORT then 2
      else 5) with hdef
    have helem : ∀ x ∈ scores, 0 ≤ x ∧ x ≤ 10 := by
      intro x hx
      rw [hdef] at hx
      obtain ⟨gname, _, rfl⟩ := List.mem_map.mp hx
      dsimp only
      split_ifs <;> norm_num
    have hlen : 0 < (scores.length : ℚ) := by
      have : scores ≠ [] := hs
      have : 0 < scores.length := List.length_pos.mpr this
      exact_mod_cast this
    constructor
    · apply div_nonneg _ (le_of_lt hlen)
      exact List.sum_nonneg fun x hx => (helem x hx).1
    · rw [div_le_iff₀ hlen]
      have := List.sum_le_card_nsmul scores 10 fun x hx => (helem x hx).2
      rw [nsmul_eq_mul] at this
      linarith

theorem calculateIntensity_bounds (emotions : List (String × ℚ)) (genres : List String)
    (h : ∀ q ∈ emotions, 0 ≤ q.2 ∧ q.2 ≤ 1) :
    0 ≤ calculateIntensity emotions genres ∧ calculateIntensity emotions genres ≤ 10 := by
  have hl : ∀ c, 0 ≤ lookupD emotions c ∧ lookupD emotions c ≤ 1 :=
    fun c => lookupD_unit c h
  have hg := getIntensityFromGenres_bounds genres
  rw [calculateIntensity]
  simp only [HIGH_INTENSITY_EMOTIONS, List.map_cons, List.map_nil]
  have hmax := foldl_max_bounds
    [lookupD emotions "controlled_fear", lookupD emotions "righteous_anger",
     lookupD emotions "mind_blown"]
    (lookupD emotions "thrilling_tension") (hl _).1 (hl _).2
    (by
      intro x hx
      fin_cases hx <;> exact hl _)
  constructor
  · nlinarith [hmax.1, hmax.2, hg.1, hg.2]
  · nlinarith [hmax.1, hmax.2, hg.1, hg.2]

theorem calculateCatharsis_bounds (emotions : List (String × ℚ))
    (h : ∀ q ∈ emotions, 0 ≤ q.2 ∧ q.2 ≤ 1) :
    0 ≤ calculateCatharsis emotions ∧ calculateCatharsis emotions ≤ 10 := by
  have hl : ∀ c, 0 ≤ lookupD emotions c ∧ lookupD emotions c ≤ 1 :=
    fun c => lookupD_unit c h
  rw [calculateCatharsis]
  simp only [CATHARTIC_EMOTIONS, List.map_cons, List.map_nil]
  have hmax := foldl_max_bounds
    [lookupD emotions "bittersweet_hope", lookupD emotions "triumphant_inspired",
     lookupD emotions "awe_wonder"]
    (lookupD emotions "cathartic_sadness") (hl _).1 (hl _).2
    (by
      intro x hx
      fin_cases hx <;> exact hl _)
  rw [if_neg (by simp)]
  simp only [List.sum_cons, List.sum_nil, List.length_cons, List.length_nil]
  have h1 := hl "cathartic_sadness"
  have h2 := hl "bittersweet_hope"
  have h3 := hl "triumphant_inspired"
  have h4 := hl "awe_wonder"
  constructor
  · push_cast
    nlinarith [hmax.1, hmax.2]
  · push_cast
    nlinarith [hmax.1, hmax.2]

theorem calculateComfort_bounds (emotions : List (String × ℚ)) (genres : List String) :
    0 ≤ calculateComfort emotions genres ∧ calculateComfort emotions genres ≤ 10 := by
  rw [calculateComfort]
  exact ⟨le_max_left 0 _, max_le (by norm_num) (min_le_left 10 _)⟩

theorem confidenceOf_bounds (o : Option ℕ) :
    1 / 2 ≤ confidenceOf o ∧ confidenceOf o ≤ 9 / 10 := by
  cases o with
  | none => norm_num [confidenceOf]
  | some len =>
      rw [confidenceOf]
      by_cases h : 20 < len
      · rw [if_pos h]
        constructor
        · apply le_min (by norm_num)
          have : (0 : ℚ) ≤ (len : ℚ) / 1000 := by positivity
          linarith
        · have := min_le_left (0.9 : ℚ) (0.5 + (len : ℚ) / 1000)
          linarith
      · rw [if_neg h]
        norm_num

theorem nlpInput_values (o : Option ℕ) (r : Except Unit (List (String × ℚ)))
    (hr : ∀ p ∈ classifyText r, 0 ≤ p.2 ∧ p.2 ≤ 1) :
    ∀ q ∈ nlpInput o r, 0 ≤ q.2 ∧ q.2 ≤ 1 := by
  unfold nlpInput
  split_ifs with h
  · exact mapToCategories_values _ hr
  · simp

theorem combinedEmotions_values {nlp genre : List (String × ℚ)} {w1 w2 : ℚ}
    (hn : ∀ q ∈ nlp, 0 ≤ q.2 ∧ q.2 ≤ 1) (hg : ∀ q ∈ genre, 0 ≤ q.2 ∧ q.2 ≤ 1)
    (hw1 : 0 ≤ w1) (hw2 : 0 ≤ w2) (hsum : w1 + w2 = 1) :
    ∀ q ∈ combinedEmotions nlp genre w1 w2, 0 ≤ q.2 ∧ q.2 ≤ 1 := by
  intro q hq
  obtain ⟨_, hval, _⟩ := combinedEmotions_mem hq
  have h1 := lookupD_unit (m := nlp) q.1 hn
  have h2 := lookupD_unit (m := genre) q.1 hg
  have hx0 : 0 ≤ lookupD nlp q.1 * w1 + lookupD genre q.1 * w2 :=
    add_nonneg (mul_nonneg h1.1 hw1) (mul_nonneg h2.1 hw2)
  have hx1 : lookupD nlp q.1 * w1 + lookupD genre q.1 * w2 ≤ 1 := by
    nlinarith [h1.2, h2.2]
  rw [hval]
  constructor
  · have := roundDec_mono 3 hx0
    rwa [roundDec_three_zero] at this
  · have := roundDec_mono 3 hx1
    rwa [roundDec_three_one] at this

/-! ## Claim C5: derived score ranges -/

/-- C5: under the classifier contract (all classifier scores in [0,1]) and
non-negative weights, every successfully synthesised profile has intensity,
catharsis and comfort scores in [0,10] and confidence in [0,1], although
the intensity and catharsis formulas apply no explicit clamp. -/
theorem profile_score_ranges (o : Option ℕ) (r : Except Unit (List (String × ℚ)))
    (g : List String) (w1 w2 : ℚ)
    (hr : ∀ p ∈ classifyText r, 0 ≤ p.2 ∧ p.2 ≤ 1)
    (hw1 : 0 ≤ w1) (hw2 : 0 ≤ w2) :
    match createEmotionProfile o r g w1 w2 with
    | none => True
    | some prof =>
        (0 ≤ prof.intensityScore ∧ prof.intensityScore ≤ 10)
        ∧ (0 ≤ prof.catharsisScore ∧ prof.catharsisScore ≤ 10)
        ∧ (0 ≤ prof.comfortScore ∧ prof.comfortScore ≤ 10)
        ∧ (0 ≤ prof.confidence ∧ prof.confidence ≤ 1) := by
  rw [createEmotionProfile]
  by_cases h : w1 + w2 = 0
  · rw [if_pos h]
    trivial
  · rw [if_neg h]
    have hpos : 0 < w1 + w2 := lt_of_le_of_ne (by linarith) (Ne.symm h)
    have hw1n : 0 ≤ w1 / (w1 + w2) := div_nonneg hw1 (le_of_lt hpos)
    have hw2n : 0 ≤ w2 / (w1 + w2) := div_nonneg hw2 (le_of_lt hpos)
    have hsum : w1 / (w1 + w2) + w2 / (w1 + w2) = 1 := by field_simp
    have hcomb :=
      combinedEmotions_values (nlpInput_values o r hr) (getGenreEmotions_values g)
        hw1n hw2n hsum
    have hi := calculateIntensity_bounds _ g hcomb
    have hca := calculateCatharsis_bounds _ hcomb
    have hco := calculateComfort_bounds
      (combinedEmotions (nlpInput o r) (getGenreEmotions g) (w1 / (w1 + w2))
        (w2 / (w1 + w2))) g
    have hcf := roundDec_mem roundDec_two_half roundDec_two_ninety
      (confidenceOf_bounds o).1 (confidenceOf_bounds o).2
    refine ⟨roundDec_mem roundDec_one_zero roundDec_one_ten hi.1 hi.2,
      roundDec_mem roundDec_one_zero roundDec_one_ten hca.1 hca.2,
      roundDec_mem roundDec_one_zero roundDec_one_ten hco.1 hco.2, ?_⟩
    show 0 ≤ roundDec 2 (confidenceOf o) ∧ roundDec 2 (confidenceOf o) ≤ 1
    constructor <;> linarith [hcf.1, hcf.2]

theorem profile_score_ranges_witness :
    (∀ p ∈ classifyText (.ok [("joy", 1 / 2)]), 0 ≤ p.2 ∧ p.2 ≤ 1)
    ∧ (0 ≤ (0.6 : ℚ)) ∧ (0 ≤ (0.4 : ℚ))
    ∧ (match createEmotionProfile (some 30) (.ok [("joy", 1 / 2)]) ["comedy"] 0.6 0.4 with
       | none => True
       | some prof =>
           (0 ≤ prof.intensityScore ∧ prof.intensityScore ≤ 10)
           ∧ (0 ≤ prof.catharsisScore ∧ prof.catharsisScore ≤ 10)
           ∧ (0 ≤ prof.comfortScore ∧ prof.comfortScore ≤ 10)
           ∧ (0 ≤ prof.confidence ∧ prof.confidence ≤ 1)) :=
  ⟨by norm_num [classifyText], by norm_num, by norm_num,
   profile_score_ranges (some 30) (.ok [("joy", 1 / 2)]) ["comedy"] 0.6 0.4
     (by norm_num [classifyText]) (by norm_num) (by norm_num)⟩

/-! ## Claim C10: the confidence range and formula -/

/-- C10 counterexample: at overview length 21 the code stores
`round(confidence, 2) = 0.52`, not the claim's un-rounded
`min(0.9, 0.5 + 21/1000) = 0.521`. -/
theorem confidence_formula_rounding :
    (createEmotionProfile (some 21) (.ok []) [] 0.6 0.4).map EmotionProfile.confidence
        = some 0.52
    ∧ (0.52 : ℚ) ≠ min 0.9 (0.5 + (21 : ℚ) / 1000) := by
  constructor
  · with_unfolding_all decide
  · norm_num

/-- C10 amended: every successfully synthesised profile's confidence lies in
[0.5, 0.9]; it is exactly 0.5 when the text is absent or at most 20
characters, and `min(0.9, 0.5 + len/1000)` rounded to 2 decimals
otherwise. -/
theorem confidence_range (o : Option ℕ) (r : Except Unit (List (String × ℚ)))
    (g : List String) (w1 w2 : ℚ) :
    match createEmotionProfile o r g w1 w2 with
    | none => True
    | some prof =>
        (1 / 2 ≤ prof.confidence ∧ prof.confidence ≤ 9 / 10)
        ∧ ((match o with | some len => len ≤ 20 | none => True) → prof.confidence = 1 / 2)
        ∧ (∀ len, o = some len → 20 < len →
            prof.confidence = roundDec 2 (min 0.9 (0.5 + (len : ℚ) / 1000))) := by
  rw [createEmotionProfile]
  by_cases h : w1 + w2 = 0
  · rw [if_pos h]
    trivial
  · rw [if_neg h]
    refine ⟨roundDec_mem roundDec_two_half roundDec_two_ninety
      (confidenceOf_bounds o).1 (confidenceOf_bounds o).2, ?_, ?_⟩
    · intro hshort
      have : confidenceOf o = 1 / 2 := by
        cases o with
        | none => norm_num [confidenceOf]
        | some len =>
            rw [confidenceOf, if_neg (not_lt.mpr hshort)]
            norm_num
      show roundDec 2 (confidenceOf o) = 1 / 2
      rw [this, roundDec_two_half]
    · intro len ho hlen
      subst ho
      show roundDec 2 (confidenceOf (some len)) = _
      rw [confidenceOf, if_pos hlen]

theorem confidence_range_witness :
    match createEmotionProfile (some 30) (.ok []) ["comedy"] 0.6 0.4 with
    | none => True
    | some prof => prof.confidence = roundDec 2 (min 0.9 (0.5 + (30 : ℚ) / 1000)) := by
  have h := confidence_range (some 30) (.ok []) ["comedy"] 0.6 0.4
  cases hcp : createEmotionProfile (some 30) (.ok []) ["comedy"] 0.6 0.4 with
  | none => trivial
  | some prof =>
      rw [hcp] at h
      exact h.2.2 30 rfl (by norm_num)
